import Mathlib

/-!
Shallow embedding of `hippocampusgame.c`, a Simon-style LED memory game for
the STK500 board (four active-low switches on PIND, four active-low LEDs on
PORTB).

Modelling conventions:

* Reading the switch port `PIND` consumes one tick of an input stream
  `inp : Nat → Nat`; the sampled byte is `inp t % 256`.
* Writing the LED port `PORTB` appends the pair `(current tick, value)` to
  the write trace `St.out`; `St.portb` holds the last written value.
* The C globals `keyboard`, `seq`, `seq_len`, `sleep` are fields of `St`.
* Busy-wait loops whose bound depends only on program input (`while_key`,
  `while_key_not`, `while_keypattern_not`) take fuel and return
  `Except Err _`; `Err.fuelOut` marks fuel exhaustion.  The key-wait loop in
  `wait_for_key` is bounded by `KEYTIMEOUT` in the source and needs no fuel.
* The out-of-bounds array read `lengths[level]` that the C source performs
  when `level` is not in 0..3 is modelled as the failure `Err.oobRead`.
* The C library generator `random()` is an external oracle: the draw used by
  `gen_seq` is passed in explicitly as `r`, and the discarded `random()`
  calls inside `delay` (which only advance the generator) are omitted
  because the generator state is not part of the modelled program state.
-/

/-- Program state: the C globals, the last `PORTB` value, the timestamped
trace of `PORTB` writes, and the input-stream cursor `tick`. -/
structure St where
  keyboard : Nat
  portb : Nat
  out : List (Nat × Nat)
  tick : Nat
  seq : Nat
  seq_len : Nat
  sleep : Bool
  deriving DecidableEq, Repr

/-- Failure modes of the embedded program: running out of fuel in an
unbounded busy-wait loop, or the out-of-bounds read `lengths[level]`. -/
inductive Err where
  | fuelOut
  | oobRead
  deriving DecidableEq, Repr

deriving instance DecidableEq for Except

def DELAYTIME : Nat := 300
def STANDBYTIMEOUT : Nat := 20
def KEYTIMEOUT : Nat := 1000000

/-- Sequence-length table, `const int lengths[4] = {5, 7, 9, 11}`. -/
def lengths : List Nat := [5, 7, 9, 11]

/-- Reading the switch port: `keyboard = PIND`. -/
def sample (inp : Nat → Nat) (s : St) : St :=
  { s with keyboard := inp s.tick % 256, tick := s.tick + 1 }

/-- Writing the LED port: `PORTB = v`. -/
def writeB (v : Nat) (s : St) : St :=
  { s with portb := v % 256, out := s.out ++ [(s.tick, v % 256)] }

/-- C function `number2bits`: `return ~(0b1 << number);` truncated to the
`unsigned char` return type. -/
def number2bits (number : Nat) : Nat :=
  ((1 <<< number) % 256) ^^^ 255

/-- C function `bits2number`: decode the four canonical one-switch-pressed
patterns, returning the sentinel 8 on any other byte. -/
def bits2number (bits : Nat) : Nat :=
  if bits = 0b11111110 then 0
  else if bits = 0b11111101 then 1
  else if bits = 0b11111011 then 2
  else if bits = 0b11110111 then 3
  else 8

/-- Body of C function `delay`: up to `n` iterations of sampling; when
`interruptible` and a key is pressed, mirror the sample to the LEDs and
report the interruption. -/
def delayLoop (inp : Nat → Nat) (interruptible : Bool) : Nat → St → St × Bool
  | 0, s => (s, false)
  | n + 1, s =>
    let s := sample inp s
    if interruptible ∧ s.keyboard ≠ 255 then (writeB s.keyboard s, true)
    else delayLoop inp interruptible n s

/-- C function `delay`. -/
def delay (inp : Nat → Nat) (interruptible : Bool) (s : St) : St × Bool :=
  delayLoop inp interruptible DELAYTIME s

/-- C function `delay_long`: repeat `delay` `count` times, short-circuiting
on interruption. -/
def delay_long (inp : Nat → Nat) : Nat → Bool → St → St × Bool
  | 0, _, s => (s, false)
  | n + 1, interruptible, s =>
    match delay inp interruptible s with
    | (s, true) => (s, true)
    | (s, false) => delay_long inp n interruptible s

/-- C function `while_key`: sample until the keyboard differs from `key`. -/
def while_key (inp : Nat → Nat) (key : Nat) : Nat → St → Except Err St
  | 0, _ => .error .fuelOut
  | fuel + 1, s =>
    let s := sample inp s
    if s.keyboard = key then while_key inp key fuel s else .ok s

/-- C function `while_key_not`: sample until the keyboard equals `key`. -/
def while_key_not (inp : Nat → Nat) (key : Nat) : Nat → St → Except Err St
  | 0, _ => .error .fuelOut
  | fuel + 1, s =>
    let s := sample inp s
    if s.keyboard ≠ key then while_key_not inp key fuel s else .ok s

/-- Key-wait loop of C function `wait_for_key`: sample while all keys are
released; the source bounds the loop by `KEYTIMEOUT`, which corresponds to
starting `rem` at `KEYTIMEOUT + 1`. -/
def wfkLoop (inp : Nat → Nat) : Nat → St → St
  | 0, s => s
  | rem + 1, s =>
    let s := sample inp s
    if s.keyboard = 255 then wfkLoop inp rem s else s

/-- C function `wait_for_key`: wait for release, wait (boundedly) for a
press, mirror it, compare with `key`, wait for release again.  The returned
flag is the `error` result: `true` when the pressed byte differs from `key`
(which also covers the timeout case, where the keyboard stays 255). -/
def wait_for_key (inp : Nat → Nat) (fuel : Nat) (key : Nat) (s : St) :
    Except Err (St × Bool) :=
  match while_key_not inp 255 fuel s with
  | .error e => .error e
  | .ok s =>
    let s := wfkLoop inp (KEYTIMEOUT + 1) s
    let s := writeB s.keyboard s
    let error := s.keyboard != key
    match while_key_not inp 255 fuel s with
    | .error e => .error e
    | .ok s => .ok (writeB s.keyboard s, error)

/-- One step of the rotating standby pattern: `leds <<= 1; leds |= 1;` on an
`unsigned char`. -/
def ledsShift (leds : Nat) : Nat := ((leds <<< 1) ||| 1) &&& 255

/-- Inner loop of C function `standby`: four interruptible delays showing a
rotating single-LED pattern (only when `sleep` is clear); the flag reports
an interruption. -/
def standbyInner (inp : Nat → Nat) : Nat → Nat → St → St × Bool
  | 0, _, s => (s, false)
  | n + 1, leds, s =>
    let s := if s.sleep then s else writeB leds s
    match delay inp true s with
    | (s, true) => (writeB 255 s, true)
    | (s, false) => standbyInner inp n (ledsShift leds) s

/-- Outer loop of C function `standby`: `STANDBYTIMEOUT` rounds of the inner
loop; the flag reports a timeout (no key pressed during the whole budget). -/
def standbyOuter (inp : Nat → Nat) : Nat → St → St × Bool
  | 0, s => (writeB 255 s, true)
  | n + 1, s =>
    match standbyInner inp 4 0b11111110 s with
    | (s, true) => (s, false)
    | (s, false) => standbyOuter inp n s

/-- C function `standby`. -/
def standby (inp : Nat → Nat) (s : St) : St × Bool :=
  standbyOuter inp STANDBYTIMEOUT (writeB 255 s)

/-- C function `while_keypattern_not`: run `standby` until it either times
out (then set `sleep`) or a key matching `keypattern` is down; the match
test is `~keyboard & keypattern & 0xFF`. -/
def while_keypattern_not (inp : Nat → Nat) (keypattern : Nat) :
    Nat → St → Except Err St
  | 0, _ => .error .fuelOut
  | fuel + 1, s =>
    match standby inp s with
    | (s, true) => .ok { s with sleep := true }
    | (s, false) =>
      if (s.keyboard ^^^ 255) &&& keypattern &&& 255 ≠ 0 then
        .ok { s with sleep := false }
      else while_keypattern_not inp keypattern fuel s

/-- C function `gen_seq`: `seq_len = lengths[level]; seq = random();`.  The
draw of `random()` is the explicit argument `r`, truncated to the 32-bit
`unsigned long` of the target; an out-of-range `level` is the out-of-bounds
read `Err.oobRead`. -/
def gen_seq (level : Nat) (r : Nat) (s : St) : Except Err St :=
  match lengths[level]? with
  | some len => .ok { s with seq_len := len, seq := r % 4294967296 }
  | none => .error .oobRead

/-- C function `init`: mode selection (SW0/SW1), then level selection
(SW0..SW3), mirroring each accepted pattern to the LEDs and generating the
round sequence. -/
def init (inp : Nat → Nat) (fuel : Nat) (r : Nat) (s : St) : Except Err St :=
  match while_keypattern_not inp 0b00000011 fuel s with
  | .error e => .error e
  | .ok s =>
    if s.sleep then .ok s
    else
      let s := writeB s.keyboard s
      match while_key_not inp 0b11111111 fuel s with
      | .error e => .error e
      | .ok s =>
        match while_keypattern_not inp 0b00001111 fuel s with
        | .error e => .error e
        | .ok s =>
          if s.sleep then .ok s
          else
            let s := writeB s.keyboard s
            let level := bits2number s.keyboard
            match while_key_not inp 0b11111111 fuel s with
            | .error e => .error e
            | .ok s =>
              let s := writeB s.keyboard s
              gen_seq level r s

/-- Playback loop of C function `play`: for the first `i` symbols (here the
remaining count `rem` with current index `j`), light the symbol's LED, hold,
blank, hold. -/
def playbackLoop (inp : Nat → Nat) : Nat → Nat → St → St
  | _, 0, s => s
  | j, rem + 1, s =>
    let led := (s.seq >>> (j <<< 1)) &&& 0b11
    let s := writeB (number2bits led) s
    let s := (delay_long inp 4 false s).1
    let s := writeB 0b11111111 s
    let s := (delay_long inp 4 false s).1
    playbackLoop inp (j + 1) rem s

/-- Verification loop of C function `play`: require each of the first `i`
symbols in order; the flag is `true` when the round was lost (the source
`return 0`). -/
def verifyLoop (inp : Nat → Nat) (fuel : Nat) : Nat → Nat → St → Except Err (St × Bool)
  | _, 0, s => .ok (s, false)
  | j, rem + 1, s =>
    let led := (s.seq >>> (j <<< 1)) &&& 0b11
    match wait_for_key inp fuel (number2bits led) s with
    | .error e => .error e
    | .ok (s, error) =>
      if error then .ok (s, true) else verifyLoop inp fuel (j + 1) rem s

/-- One iteration of the round loop of C function `play` at position `i`:
pre-roll pacing, playback of the first `i` symbols, then verification. -/
def playRound (inp : Nat → Nat) (fuel i : Nat) (s : St) : Except Err (St × Bool) :=
  let s := (delay_long inp 12 false s).1
  let s := playbackLoop inp 0 i s
  verifyLoop inp fuel 0 i s

/-- Round loop of C function `play`: positions `i`, `i+1`, ... for `rem`
rounds, aborting with `false` (LOSE) on the first lost round. -/
def playLoop (inp : Nat → Nat) (fuel : Nat) : Nat → Nat → St → Except Err (St × Bool)
  | _, 0, s => .ok (s, true)
  | i, rem + 1, s =>
    match playRound inp fuel i s with
    | .error e => .error e
    | (.ok (s, lost)) => if lost then .ok (s, false) else playLoop inp fuel (i + 1) rem s

/-- C function `play`: rounds 1 to `seq_len`; the flag is the C return value
(`true` = win). -/
def play (inp : Nat → Nat) (fuel : Nat) (s : St) : Except Err (St × Bool) :=
  playLoop inp fuel 1 s.seq_len s

/-- One cycle of C function `celebrate`: sixteen writes, each followed by a
non-interruptible delay, chasing a single lit LED across the four LEDs. -/
def celebrateBody (inp : Nat → Nat) (s : St) : St :=
  let s := writeB 0b11111110 s
  let s := (delay inp false s).1
  let s := writeB 0b11111111 s
  let s := (delay inp false s).1
  let s := writeB 0b11111110 s
  let s := (delay inp false s).1
  let s := writeB 0b11111111 s
  let s := (delay inp false s).1
  let s := writeB 0b11111101 s
  let s := (delay inp false s).1
  let s := writeB 0b11111111 s
  let s := (delay inp false s).1
  let s := writeB 0b11111101 s
  let s := (delay inp false s).1
  let s := writeB 0b11111111 s
  let s := (delay inp false s).1
  let s := writeB 0b11111011 s
  let s := (delay inp false s).1
  let s := writeB 0b11111111 s
  let s := (delay inp false s).1
  let s := writeB 0b11111011 s
  let s := (delay inp false s).1
  let s := writeB 0b11111111 s
  let s := (delay inp false s).1
  let s := writeB 0b11110111 s
  let s := (delay inp false s).1
  let s := writeB 0b11111111 s
  let s := (delay inp false s).1
  let s := writeB 0b11110111 s
  let s := (delay inp false s).1
  let s := writeB 0b11111111 s
  (delay inp false s).1

/-- Cycle loop of C function `celebrate`. -/
def celebrateLoop (inp : Nat → Nat) : Nat → St → St
  | 0, s => s
  | n + 1, s => celebrateLoop inp n (celebrateBody inp s)

/-- C function `celebrate`: exactly 3 cycles. -/
def celebrate (inp : Nat → Nat) (s : St) : St := celebrateLoop inp 3 s

/-- One cycle of C function `mock`: `PORTB = 0xF0` (all four low LEDs on),
delay, `PORTB = 0xFF` (all off), delay. -/
def mockBody (inp : Nat → Nat) (s : St) : St :=
  let s := writeB 0xF0 s
  let s := (delay inp false s).1
  let s := writeB 0xFF s
  (delay inp false s).1

/-- Cycle loop of C function `mock`. -/
def mockLoop (inp : Nat → Nat) : Nat → St → St
  | 0, s => s
  | n + 1, s => mockLoop inp n (mockBody inp s)

/-- C function `mock`: exactly 15 cycles. -/
def mock (inp : Nat → Nat) (s : St) : St := mockLoop inp 15 s

/-! Specification-side definitions.  These follow the words of the
specification rather than the control flow of the source, and the theorems
below compare the two. -/

/-- Number of lit LEDs in an active-low byte: the count of zero bits among
bit positions 0..7. -/
def onCount (v : Nat) : Nat :=
  ((List.range 8).filter (fun k => !(v.testBit k))).length

/-- High nibble of a byte is all ones (the idle state the device expects on
the unused upper LED lines). -/
def hiSet (v : Nat) : Prop := v &&& 240 = 240

instance hiSetDecidable (v : Nat) : Decidable (hiSet v) :=
  inferInstanceAs (Decidable (v &&& 240 = 240))

/-- Every write of a trace keeps the high nibble all ones. -/
def hiOK (l : List (Nat × Nat)) : Prop := ∀ w ∈ l, hiSet w.2

instance hiOKDecidable (l : List (Nat × Nat)) : Decidable (hiOK l) :=
  inferInstanceAs (Decidable (∀ w ∈ l, hiSet w.2))

/-- Expected playback trace, per the specification: for each of the symbols
at indices `j`, `j+1`, ... (`rem` of them), the single-LED pattern of the
symbol `(seq >> (2*index)) & 0b11` at the start of its slot, and blank 1200
ticks later, slots spaced 2400 ticks apart. -/
def pbWrites (seqv : Nat) : Nat → Nat → Nat → List (Nat × Nat)
  | _, _, 0 => []
  | t0, j, rem + 1 =>
    (t0, number2bits ((seqv >>> (2 * j)) &&& 3)) ::
      (t0 + 1200, 255) :: pbWrites seqv (t0 + 2400) (j + 1) rem

/-- Expected write trace of one celebrate cycle starting at tick `t0`:
sixteen writes spaced 300 ticks apart, chasing one lit LED. -/
def celebCycleWrites (t0 : Nat) : List (Nat × Nat) :=
  [(t0, 254), (t0 + 300, 255), (t0 + 600, 254), (t0 + 900, 255),
   (t0 + 1200, 253), (t0 + 1500, 255), (t0 + 1800, 253), (t0 + 2100, 255),
   (t0 + 2400, 251), (t0 + 2700, 255), (t0 + 3000, 251), (t0 + 3300, 255),
   (t0 + 3600, 247), (t0 + 3900, 255), (t0 + 4200, 247), (t0 + 4500, 255)]

/-- Expected write trace of the whole celebrate animation: exactly three
cycles, 4800 ticks apart. -/
def celebWrites (t0 : Nat) : List (Nat × Nat) :=
  celebCycleWrites t0 ++ celebCycleWrites (t0 + 4800) ++ celebCycleWrites (t0 + 9600)

/-- Expected write trace of `n` mock cycles starting at tick `t0`: each
cycle is an all-four-LEDs-on write then an all-off write, 300 ticks apart,
cycles spaced 600 ticks. -/
def mockWrites : Nat → Nat → List (Nat × Nat)
  | _, 0 => []
  | t0, n + 1 => (t0, 240) :: (t0 + 300, 255) :: mockWrites (t0 + 600) n

/-- Specification-side verification of one round: run `wait_for_key` for
every one of the `rem` positions with no early abort, and report whether all
of them matched.  The theorems below compare this against the source's
early-abort `verifyLoop`. -/
def verifyAll (inp : Nat → Nat) (fuel : Nat) : Nat → Nat → St → Except Err (St × Bool)
  | _, 0, s => .ok (s, true)
  | j, rem + 1, s =>
    let led := (s.seq >>> (j <<< 1)) &&& 0b11
    match wait_for_key inp fuel (number2bits led) s with
    | .error e => .error e
    | .ok (s, error) =>
      match verifyAll inp fuel (j + 1) rem s with
      | .error e => .error e
      | .ok (s2, allOk) => .ok (s2, !error && allOk)

/-- Specification-side round at position `i`: pacing and playback as in the
source, then the no-early-abort verification. -/
def playRoundAll (inp : Nat → Nat) (fuel i : Nat) (s : St) : Except Err (St × Bool) :=
  let s := (delay_long inp 12 false s).1
  let s := playbackLoop inp 0 i s
  verifyAll inp fuel 0 i s

/-- Specification-side round loop: all `rem` rounds are run, and the flag
reports whether every position of every round passed. -/
def playAllLoop (inp : Nat → Nat) (fuel : Nat) : Nat → Nat → St → Except Err (St × Bool)
  | _, 0, s => .ok (s, true)
  | i, rem + 1, s =>
    match playRoundAll inp fuel i s with
    | .error e => .error e
    | .ok (s, pass) =>
      match playAllLoop inp fuel (i + 1) rem s with
      | .error e => .error e
      | .ok (s2, b) => .ok (s2, pass && b)

/-- Specification-side game: the player wins exactly when every position of
every round from 1 to `seq_len` passes verification. -/
def playAll (inp : Nat → Nat) (fuel : Nat) (s : St) : Except Err (St × Bool) :=
  playAllLoop inp fuel 1 s.seq_len s

/-- Writes of `n` iterations of the celebrate cycle. -/
def celebLoopWrites : Nat → Nat → List (Nat × Nat)
  | _, 0 => []
  | t0, n + 1 => celebCycleWrites t0 ++ celebLoopWrites (t0 + 4800) n

/-! Lemmas about the delay primitive. -/

/-- State after `n` uninterrupted samplings: the cursor advances by `n` and
the keyboard holds the last sample. -/
def afterDelay (inp : Nat → Nat) (n : Nat) (s : St) : St :=
  { s with tick := s.tick + n,
           keyboard := if n = 0 then s.keyboard else inp (s.tick + (n - 1)) % 256 }

theorem delayLoop_false (inp : Nat → Nat) :
    ∀ n s, delayLoop inp false n s = (afterDelay inp n s, false) := by
  intro n
  induction n with
  | zero => intro s; simp [delayLoop, afterDelay]
  | succ m ih =>
    intro s
    rw [delayLoop]
    simp only [Bool.false_eq_true, false_and, if_false]
    rw [ih]
    cases m with
    | zero => simp [afterDelay, sample]
    | succ k =>
      simp only [afterDelay, sample, Prod.mk.injEq, St.mk.injEq, Nat.succ_ne_zero, if_false,
        and_true, true_and]
      constructor
      · have he : s.tick + 1 + (k + 1 - 1) = s.tick + (k + 1 + 1 - 1) := by omega
        rw [he]
      · omega

theorem delay_false (inp : Nat → Nat) (s : St) :
    delay inp false s = (afterDelay inp 300 s, false) :=
  delayLoop_false inp 300 s

theorem afterDelay_comp (inp : Nat → Nat) (m n : Nat) (s : St) :
    afterDelay inp n (afterDelay inp m s) = afterDelay inp (m + n) s := by
  cases n with
  | zero => simp [afterDelay]
  | succ k =>
    simp only [afterDelay, St.mk.injEq, Nat.succ_ne_zero, if_false, and_true, true_and,
      Nat.add_eq_zero, and_false, false_and]
    constructor
    · have he : s.tick + m + (k + 1 - 1) = s.tick + (m + (k + 1) - 1) := by omega
      rw [he]
    · omega

theorem delay_long_false (inp : Nat → Nat) :
    ∀ n s, delay_long inp n false s = (afterDelay inp (300 * n) s, false) := by
  intro n
  induction n with
  | zero => intro s; simp [delay_long, afterDelay]
  | succ m ih =>
    intro s
    rw [delay_long, delay_false]
    show delay_long inp m false (afterDelay inp 300 s) = _
    rw [ih, afterDelay_comp]
    have he : 300 + 300 * m = 300 * (m + 1) := by ring
    rw [he]

@[simp] theorem afterDelay_out (inp : Nat → Nat) (n : Nat) (s : St) :
    (afterDelay inp n s).out = s.out := rfl

@[simp] theorem afterDelay_seq (inp : Nat → Nat) (n : Nat) (s : St) :
    (afterDelay inp n s).seq = s.seq := rfl

@[simp] theorem afterDelay_seq_len (inp : Nat → Nat) (n : Nat) (s : St) :
    (afterDelay inp n s).seq_len = s.seq_len := rfl

@[simp] theorem afterDelay_sleep (inp : Nat → Nat) (n : Nat) (s : St) :
    (afterDelay inp n s).sleep = s.sleep := rfl

@[simp] theorem afterDelay_portb (inp : Nat → Nat) (n : Nat) (s : St) :
    (afterDelay inp n s).portb = s.portb := rfl

@[simp] theorem afterDelay_tick (inp : Nat → Nat) (n : Nat) (s : St) :
    (afterDelay inp n s).tick = s.tick + n := rfl

@[simp] theorem writeB_out (v : Nat) (s : St) :
    (writeB v s).out = s.out ++ [(s.tick, v % 256)] := rfl

@[simp] theorem writeB_seq (v : Nat) (s : St) : (writeB v s).seq = s.seq := rfl

@[simp] theorem writeB_seq_len (v : Nat) (s : St) : (writeB v s).seq_len = s.seq_len := rfl

@[simp] theorem writeB_sleep (v : Nat) (s : St) : (writeB v s).sleep = s.sleep := rfl

@[simp] theorem writeB_tick (v : Nat) (s : St) : (writeB v s).tick = s.tick := rfl

@[simp] theorem writeB_keyboard (v : Nat) (s : St) : (writeB v s).keyboard = s.keyboard := rfl

/-! Trace lemmas for the feedback animations and playback. -/

theorem mockBody_eq (inp : Nat → Nat) (s : St) :
    mockBody inp s =
      { s with keyboard := inp (s.tick + 599) % 256, portb := 255,
               tick := s.tick + 600,
               out := s.out ++ [(s.tick, 240), (s.tick + 300, 255)] } := by
  simp [mockBody, delay_false, afterDelay, writeB, Nat.add_assoc, List.append_assoc]

theorem mockLoop_out (inp : Nat → Nat) :
    ∀ n s, (mockLoop inp n s).out = s.out ++ mockWrites s.tick n ∧
      (mockLoop inp n s).tick = s.tick + 600 * n := by
  intro n
  induction n with
  | zero => intro s; simp [mockLoop, mockWrites]
  | succ m ih =>
    intro s
    rw [mockLoop, mockBody_eq]
    constructor
    · rw [(ih _).1]
      simp [mockWrites, List.append_assoc]
    · rw [(ih _).2]
      simp only []
      omega

/-- The mock animation appends exactly the fifteen-cycle trace. -/
theorem mock_out (inp : Nat → Nat) (s : St) :
    (mock inp s).out = s.out ++ mockWrites s.tick 15 :=
  (mockLoop_out inp 15 s).1

theorem celebrateBody_eq (inp : Nat → Nat) (s : St) :
    celebrateBody inp s =
      { s with keyboard := inp (s.tick + 4799) % 256, portb := 255,
               tick := s.tick + 4800,
               out := s.out ++ celebCycleWrites s.tick } := by
  simp [celebrateBody, delay_false, afterDelay, writeB, celebCycleWrites,
    Nat.add_assoc, List.append_assoc]

theorem celebrateLoop_out (inp : Nat → Nat) :
    ∀ n s, (celebrateLoop inp n s).out = s.out ++ celebLoopWrites s.tick n ∧
      (celebrateLoop inp n s).tick = s.tick + 4800 * n := by
  intro n
  induction n with
  | zero => intro s; simp [celebrateLoop, celebLoopWrites]
  | succ m ih =>
    intro s
    rw [celebrateLoop, celebrateBody_eq]
    constructor
    · rw [(ih _).1]
      simp [celebLoopWrites, List.append_assoc]
    · rw [(ih _).2]
      simp only []
      omega

@[simp] theorem shiftLeft_one (j : Nat) : j <<< 1 = 2 * j := by
  rw [Nat.shiftLeft_eq]
  ring

theorem number2bits_lt (n : Nat) : number2bits n < 256 := by
  have h1 : (1 <<< n) % 256 < 256 := Nat.mod_lt _ (by norm_num)
  exact Nat.xor_lt_two_pow (n := 8) h1 (by norm_num)

@[simp] theorem number2bits_mod (n : Nat) : number2bits n % 256 = number2bits n :=
  Nat.mod_eq_of_lt (number2bits_lt n)

theorem playbackLoop_out (inp : Nat → Nat) :
    ∀ rem j s, (playbackLoop inp j rem s).out = s.out ++ pbWrites s.seq s.tick j rem ∧
      (playbackLoop inp j rem s).tick = s.tick + 2400 * rem ∧
      (playbackLoop inp j rem s).seq = s.seq ∧
      (playbackLoop inp j rem s).seq_len = s.seq_len ∧
      (playbackLoop inp j rem s).sleep = s.sleep := by
  intro rem
  induction rem with
  | zero => intro j s; simp [playbackLoop, pbWrites]
  | succ m ih =>
    intro j s
    simp only [playbackLoop, delay_long_false]
    refine ⟨?_, ?_, ?_, ?_, ?_⟩
    · rw [(ih _ _).1]
      simp [pbWrites, List.append_assoc, Nat.add_assoc]
    · rw [(ih _ _).2.1]
      simp only [afterDelay_tick, writeB_tick]
      omega
    · rw [(ih _ _).2.2.1]
      simp
    · rw [(ih _ _).2.2.2.1]
      simp
    · rw [(ih _ _).2.2.2.2]
      simp

/-- The celebrate animation appends exactly the three-cycle trace. -/
theorem celebrate_out (inp : Nat → Nat) (s : St) :
    (celebrate inp s).out = s.out ++ celebWrites s.tick := by
  have h := (celebrateLoop_out inp 3 s).1
  have h3 : celebLoopWrites s.tick 3 =
      celebCycleWrites s.tick ++ (celebCycleWrites (s.tick + 4800) ++
        (celebCycleWrites (s.tick + 4800 + 4800) ++ [])) := rfl
  rw [celebrate, h, h3]
  have he : s.tick + 4800 + 4800 = s.tick + 9600 := by omega
  rw [he]
  simp [celebWrites]

/-! Preservation lemmas: the busy-wait loops and the key reader do not touch
the sequence, and most of them write nothing. -/

@[simp] theorem sample_out (inp : Nat → Nat) (s : St) : (sample inp s).out = s.out := rfl

@[simp] theorem sample_seq (inp : Nat → Nat) (s : St) : (sample inp s).seq = s.seq := rfl

@[simp] theorem sample_seq_len (inp : Nat → Nat) (s : St) :
    (sample inp s).seq_len = s.seq_len := rfl

@[simp] theorem sample_sleep (inp : Nat → Nat) (s : St) :
    (sample inp s).sleep = s.sleep := rfl

@[simp] theorem sample_portb (inp : Nat → Nat) (s : St) :
    (sample inp s).portb = s.portb := rfl

theorem while_key_not_pres (inp : Nat → Nat) (key : Nat) :
    ∀ fuel s s', while_key_not inp key fuel s = .ok s' →
      s'.out = s.out ∧ s'.seq = s.seq ∧ s'.seq_len = s.seq_len ∧
      s'.sleep = s.sleep ∧ s'.portb = s.portb := by
  intro fuel
  induction fuel with
  | zero => intro s s' h; simp [while_key_not] at h
  | succ m ih =>
    intro s s' h
    simp only [while_key_not] at h
    split at h
    · obtain ⟨h1, h2, h3, h4, h5⟩ := ih _ _ h
      simp_all
    · simp only [Except.ok.injEq] at h
      subst h
      simp

theorem while_key_pres (inp : Nat → Nat) (key : Nat) :
    ∀ fuel s s', while_key inp key fuel s = .ok s' →
      s'.out = s.out ∧ s'.seq = s.seq ∧ s'.seq_len = s.seq_len ∧
      s'.sleep = s.sleep ∧ s'.portb = s.portb := by
  intro fuel
  induction fuel with
  | zero => intro s s' h; simp [while_key] at h
  | succ m ih =>
    intro s s' h
    simp only [while_key] at h
    split at h
    · obtain ⟨h1, h2, h3, h4, h5⟩ := ih _ _ h
      simp_all
    · simp only [Except.ok.injEq] at h
      subst h
      simp

theorem wfkLoop_pres (inp : Nat → Nat) :
    ∀ rem s, (wfkLoop inp rem s).out = s.out ∧ (wfkLoop inp rem s).seq = s.seq ∧
      (wfkLoop inp rem s).seq_len = s.seq_len ∧ (wfkLoop inp rem s).sleep = s.sleep ∧
      (wfkLoop inp rem s).portb = s.portb := by
  intro rem
  induction rem with
  | zero => intro s; simp [wfkLoop]
  | succ m ih =>
    intro s
    rw [wfkLoop]
    split
    · obtain ⟨h1, h2, h3, h4, h5⟩ := ih (sample inp s)
      simp_all
    · simp

theorem wait_for_key_pres (inp : Nat → Nat) (fuel key : Nat) (s s' : St) (e : Bool)
    (h : wait_for_key inp fuel key s = .ok (s', e)) :
    s'.seq = s.seq ∧ s'.seq_len = s.seq_len ∧ s'.sleep = s.sleep := by
  unfold wait_for_key at h
  cases h1 : while_key_not inp 255 fuel s with
  | error e1 => rw [h1] at h; exact absurd h (by simp)
  | ok s1 =>
    rw [h1] at h
    simp only [] at h
    cases h2 : while_key_not inp 255 fuel (writeB (wfkLoop inp (KEYTIMEOUT + 1) s1).keyboard
        (wfkLoop inp (KEYTIMEOUT + 1) s1)) with
    | error e2 => rw [h2] at h; exact absurd h (by simp)
    | ok s2 =>
      rw [h2] at h
      simp only [Except.ok.injEq, Prod.mk.injEq] at h
      obtain ⟨hs, _⟩ := h
      subst hs
      obtain ⟨p1, p2, p3, p4, p5⟩ := while_key_not_pres inp 255 fuel s s1 h1
      obtain ⟨q1, q2, q3, q4, q5⟩ := wfkLoop_pres inp (KEYTIMEOUT + 1) s1
      obtain ⟨r1, r2, r3, r4, r5⟩ := while_key_not_pres inp 255 fuel _ _ h2
      simp_all

theorem verifyLoop_pres (inp : Nat → Nat) (fuel : Nat) :
    ∀ rem j s s' b, verifyLoop inp fuel j rem s = .ok (s', b) →
      s'.seq = s.seq ∧ s'.seq_len = s.seq_len ∧ s'.sleep = s.sleep := by
  intro rem
  induction rem with
  | zero =>
    intro j s s' b h
    simp only [verifyLoop, Except.ok.injEq, Prod.mk.injEq] at h
    obtain ⟨hs, _⟩ := h
    subst hs
    exact ⟨rfl, rfl, rfl⟩
  | succ m ih =>
    intro j s s' b h
    simp only [verifyLoop] at h
    cases hw : wait_for_key inp fuel (number2bits ((s.seq >>> (j <<< 1)) &&& 3)) s with
    | error e => rw [hw] at h; exact absurd h (by simp)
    | ok p =>
      obtain ⟨s1, err⟩ := p
      rw [hw] at h
      have hp := wait_for_key_pres inp fuel _ s s1 err hw
      cases err with
      | true =>
        simp only [if_pos, Except.ok.injEq, Prod.mk.injEq] at h
        obtain ⟨hs, _⟩ := h
        subst hs
        exact hp
      | false =>
        simp only [Bool.false_eq_true, if_false] at h
        obtain ⟨a1, a2, a3⟩ := ih _ _ _ _ h
        exact ⟨a1.trans hp.1, a2.trans hp.2.1, a3.trans hp.2.2⟩

theorem playLoop_pres (inp : Nat → Nat) (fuel : Nat) :
    ∀ rem i s s' b, playLoop inp fuel i rem s = .ok (s', b) →
      s'.seq = s.seq ∧ s'.seq_len = s.seq_len := by
  intro rem
  induction rem with
  | zero =>
    intro i s s' b h
    simp only [playLoop, Except.ok.injEq, Prod.mk.injEq] at h
    obtain ⟨hs, _⟩ := h
    subst hs
    exact ⟨rfl, rfl⟩
  | succ m ih =>
    intro i s s' b h
    simp only [playLoop] at h
    cases hr : playRound inp fuel i s with
    | error e => rw [hr] at h; exact absurd h (by simp)
    | ok p =>
      obtain ⟨s1, lost⟩ := p
      rw [hr] at h
      have hp : s1.seq = s.seq ∧ s1.seq_len = s.seq_len := by
        unfold playRound at hr
        rw [delay_long_false] at hr
        simp only [] at hr
        obtain ⟨v1, v2, v3⟩ := verifyLoop_pres inp fuel _ _ _ _ _ hr
        obtain ⟨_, _, b1, b2, _⟩ := playbackLoop_out inp i 0
          (afterDelay inp (300 * 12) s)
        simp_all
      cases lost with
      | true =>
        simp only [if_pos, Except.ok.injEq, Prod.mk.injEq] at h
        obtain ⟨hs, _⟩ := h
        subst hs
        exact hp
      | false =>
        simp only [Bool.false_eq_true, if_false] at h
        obtain ⟨a1, a2⟩ := ih _ _ _ _ h
        exact ⟨a1.trans hp.1, a2.trans hp.2⟩

/-! Equivalence of the source's early-abort verification with the
specification-side all-positions verification. -/

theorem verify_cases (inp : Nat → Nat) (fuel : Nat) :
    ∀ rem j s,
      (∃ s', verifyAll inp fuel j rem s = .ok (s', true) ∧
        verifyLoop inp fuel j rem s = .ok (s', false)) ∨
      (∃ sf, verifyLoop inp fuel j rem s = .ok (sf, true) ∧
        ((∃ e, verifyAll inp fuel j rem s = .error e) ∨
         (∃ s2, verifyAll inp fuel j rem s = .ok (s2, false)))) ∨
      (∃ e, verifyLoop inp fuel j rem s = .error e ∧
        verifyAll inp fuel j rem s = .error e) := by
  intro rem
  induction rem with
  | zero => intro j s; left; exact ⟨s, rfl, rfl⟩
  | succ m ih =>
    intro j s
    cases hw : wait_for_key inp fuel (number2bits ((s.seq >>> (2 * j)) &&& 3)) s with
    | error e =>
      right; right
      exact ⟨e, by simp [verifyLoop, hw], by simp [verifyAll, hw]⟩
    | ok p =>
      obtain ⟨s1, err⟩ := p
      cases err with
      | true =>
        right; left
        refine ⟨s1, by simp [verifyLoop, hw], ?_⟩
        cases hva : verifyAll inp fuel (j + 1) m s1 with
        | error e => exact Or.inl ⟨e, by simp [verifyAll, hw, hva]⟩
        | ok q => exact Or.inr ⟨q.1, by simp [verifyAll, hw, hva]⟩
      | false =>
        rcases ih (j + 1) s1 with ⟨s', hA, hL⟩ | ⟨sf, hL, hrest⟩ | ⟨e, hL, hA⟩
        · left
          exact ⟨s', by simp [verifyAll, hw, hA], by simp [verifyLoop, hw, hL]⟩
        · right; left
          refine ⟨sf, by simp [verifyLoop, hw, hL], ?_⟩
          rcases hrest with ⟨e, hA⟩ | ⟨s2, hA⟩
          · exact Or.inl ⟨e, by simp [verifyAll, hw, hA]⟩
          · exact Or.inr ⟨s2, by simp [verifyAll, hw, hA]⟩
        · right; right
          exact ⟨e, by simp [verifyLoop, hw, hL], by simp [verifyAll, hw, hA]⟩

theorem playRound_cases (inp : Nat → Nat) (fuel i : Nat) (s : St) :
    (∃ s', playRoundAll inp fuel i s = .ok (s', true) ∧
      playRound inp fuel i s = .ok (s', false)) ∨
    (∃ sf, playRound inp fuel i s = .ok (sf, true) ∧
      ((∃ e, playRoundAll inp fuel i s = .error e) ∨
       (∃ s2, playRoundAll inp fuel i s = .ok (s2, false)))) ∨
    (∃ e, playRound inp fuel i s = .error e ∧
      playRoundAll inp fuel i s = .error e) := by
  unfold playRound playRoundAll
  rcases verify_cases inp fuel i 0 (playbackLoop inp 0 i (delay_long inp 12 false s).1) with
    ⟨s', hA, hL⟩ | ⟨sf, hL, hrest⟩ | ⟨e, hL, hA⟩
  · exact Or.inl ⟨s', hA, hL⟩
  · exact Or.inr (Or.inl ⟨sf, hL, hrest⟩)
  · exact Or.inr (Or.inr ⟨e, hL, hA⟩)

theorem playLoop_iff (inp : Nat → Nat) (fuel : Nat) :
    ∀ rem i s s', playLoop inp fuel i rem s = .ok (s', true) ↔
      playAllLoop inp fuel i rem s = .ok (s', true) := by
  intro rem
  induction rem with
  | zero => intro i s s'; rw [playLoop, playAllLoop]
  | succ m ih =>
    intro i s s'
    rcases playRound_cases inp fuel i s with ⟨s1, hA, hL⟩ | ⟨sf, hL, hrest⟩ | ⟨e, hL, hA⟩
    · rw [playLoop, hL]
      simp only [Bool.false_eq_true, if_false]
      rw [ih]
      rw [playAllLoop, hA]
      cases hres : playAllLoop inp fuel (i + 1) m s1 with
      | error e => simp [hres]
      | ok q => simp [hres]
    · constructor
      · intro h
        rw [playLoop, hL] at h
        simp at h
      · intro h
        rw [playAllLoop] at h
        rcases hrest with ⟨e, hA⟩ | ⟨s2, hA⟩
        · rw [hA] at h
          exact absurd h (by simp)
        · rw [hA] at h
          simp only [] at h
          cases hres : playAllLoop inp fuel (i + 1) m s2 with
          | error e2 => rw [hres] at h; exact absurd h (by simp)
          | ok q => rw [hres] at h; simp at h
    · rw [playLoop, hL, playAllLoop, hA]

theorem play_iff (inp : Nat → Nat) (fuel : Nat) (s s' : St) :
    play inp fuel s = .ok (s', true) ↔ playAll inp fuel s = .ok (s', true) :=
  playLoop_iff inp fuel s.seq_len 1 s s'

/-! Behaviour of the key reader when no key is ever pressed: the bounded
wait runs out and the comparison fails against any expected key pattern. -/

theorem wfkLoop_all255 (inp : Nat → Nat) (h : ∀ t, inp t % 256 = 255) :
    ∀ rem s, wfkLoop inp rem s =
      { s with tick := s.tick + rem,
               keyboard := if rem = 0 then s.keyboard else 255 } := by
  intro rem
  induction rem with
  | zero => intro s; simp [wfkLoop]
  | succ m ih =>
    intro s
    rw [wfkLoop]
    have hs : (sample inp s).keyboard = 255 := by simp [sample, h]
    rw [if_pos hs, ih]
    cases m with
    | zero => simp [sample, h]
    | succ k =>
      simp only [sample, Nat.succ_ne_zero, if_false, St.mk.injEq, and_true, true_and]
      omega

theorem while_key_not_all255 (inp : Nat → Nat) (h : ∀ t, inp t % 256 = 255)
    (fuel : Nat) (s : St) :
    while_key_not inp 255 (fuel + 1) s = .ok (sample inp s) := by
  rw [while_key_not]
  have hs : (sample inp s).keyboard = 255 := by simp [sample, h]
  rw [if_neg (by simp [hs])]

theorem wait_for_key_timeout (inp : Nat → Nat) (h : ∀ t, inp t % 256 = 255)
    (fuel key : Nat) (hk : key ≠ 255) (s : St) :
    ∃ sf, wait_for_key inp (fuel + 1) key s = .ok (sf, true) := by
  unfold wait_for_key
  rw [while_key_not_all255 inp h]
  simp only [wfkLoop_all255 inp h]
  rw [while_key_not_all255 inp h]
  simp only [Nat.succ_ne_zero, if_false, Nat.add_eq_zero, and_false, false_and]
  have hb : ((255 : Nat) != key) = true := by
    simp [bne_iff_ne]
    omega
  simp only [writeB_keyboard]
  rw [hb]
  exact ⟨_, rfl⟩


/-! High-nibble invariant: every value the program writes to the LED port
keeps the upper four bits set, provided every input sample does. -/

theorem hiOK_append {l1 l2 : List (Nat × Nat)} :
    hiOK (l1 ++ l2) ↔ hiOK l1 ∧ hiOK l2 := by
  simp [hiOK, List.mem_append, or_imp, forall_and]

theorem hiSet_mod_of_lt {v : Nat} (h : hiSet v) (hlt : v < 256) : hiSet (v % 256) := by
  rwa [Nat.mod_eq_of_lt hlt]

/-- Invariant carried through every operation: the write trace is clean, and
the keyboard byte is a clean byte. -/
def HiInv (s : St) : Prop := hiOK s.out ∧ hiSet s.keyboard ∧ s.keyboard < 256

instance HiInvDecidable (s : St) : Decidable (HiInv s) :=
  inferInstanceAs (Decidable (hiOK s.out ∧ hiSet s.keyboard ∧ s.keyboard < 256))

theorem writeB_hi {v : Nat} {s : St} (hv : hiSet v) (hlt : v < 256) (h : HiInv s) :
    HiInv (writeB v s) := by
  obtain ⟨h1, h2, h3⟩ := h
  refine ⟨?_, h2, h3⟩
  rw [writeB_out, hiOK_append]
  refine ⟨h1, ?_⟩
  intro w hw
  simp only [List.mem_singleton] at hw
  subst hw
  exact hiSet_mod_of_lt hv hlt

theorem sample_hi {inp : Nat → Nat} (Hin : ∀ t, hiSet (inp t % 256)) {s : St}
    (h : HiInv s) : HiInv (sample inp s) :=
  ⟨h.1, Hin _, Nat.mod_lt _ (by norm_num)⟩

theorem afterDelay_hi {inp : Nat → Nat} (Hin : ∀ t, hiSet (inp t % 256)) (n : Nat)
    {s : St} (h : HiInv s) : HiInv (afterDelay inp n s) := by
  obtain ⟨h1, h2, h3⟩ := h
  refine ⟨h1, ?_, ?_⟩
  · unfold afterDelay
    split
    · exact h2
    · exact Hin _
  · unfold afterDelay
    split
    · exact h3
    · exact Nat.mod_lt _ (by norm_num)

theorem delayLoop_hi {inp : Nat → Nat} (Hin : ∀ t, hiSet (inp t % 256)) (b : Bool) :
    ∀ n s, HiInv s → HiInv (delayLoop inp b n s).1 := by
  intro n
  induction n with
  | zero => intro s h; exact h
  | succ m ih =>
    intro s h
    rw [delayLoop]
    have hs : HiInv (sample inp s) := sample_hi Hin h
    split
    · exact writeB_hi hs.2.1 hs.2.2 hs
    · exact ih _ hs

theorem delay_hi {inp : Nat → Nat} (Hin : ∀ t, hiSet (inp t % 256)) (b : Bool)
    {s : St} (h : HiInv s) : HiInv (delay inp b s).1 :=
  delayLoop_hi Hin b DELAYTIME s h

theorem delay_long_hi {inp : Nat → Nat} (Hin : ∀ t, hiSet (inp t % 256)) (b : Bool) :
    ∀ n s, HiInv s → HiInv (delay_long inp n b s).1 := by
  intro n
  induction n with
  | zero => intro s h; exact h
  | succ m ih =>
    intro s h
    rw [delay_long]
    cases hd : delay inp b s with
    | mk s1 intr =>
      have h1 : HiInv s1 := by
        have := delay_hi Hin b h
        rwa [hd] at this
      cases intr with
      | true => exact h1
      | false => exact ih _ h1

theorem while_key_not_hi {inp : Nat → Nat} (Hin : ∀ t, hiSet (inp t % 256)) (key : Nat) :
    ∀ fuel s s', while_key_not inp key fuel s = .ok s' → HiInv s → HiInv s' := by
  intro fuel
  induction fuel with
  | zero => intro s s' h; simp [while_key_not] at h
  | succ m ih =>
    intro s s' h hs
    simp only [while_key_not] at h
    split at h
    · exact ih _ _ h (sample_hi Hin hs)
    · simp only [Except.ok.injEq] at h
      subst h
      exact sample_hi Hin hs

theorem while_key_hi {inp : Nat → Nat} (Hin : ∀ t, hiSet (inp t % 256)) (key : Nat) :
    ∀ fuel s s', while_key inp key fuel s = .ok s' → HiInv s → HiInv s' := by
  intro fuel
  induction fuel with
  | zero => intro s s' h; simp [while_key] at h
  | succ m ih =>
    intro s s' h hs
    simp only [while_key] at h
    split at h
    · exact ih _ _ h (sample_hi Hin hs)
    · simp only [Except.ok.injEq] at h
      subst h
      exact sample_hi Hin hs

theorem wfkLoop_hi {inp : Nat → Nat} (Hin : ∀ t, hiSet (inp t % 256)) :
    ∀ rem s, HiInv s → HiInv (wfkLoop inp rem s) := by
  intro rem
  induction rem with
  | zero => intro s h; exact h
  | succ m ih =>
    intro s h
    rw [wfkLoop]
    split
    · exact ih _ (sample_hi Hin h)
    · exact sample_hi Hin h

theorem wait_for_key_hi {inp : Nat → Nat} (Hin : ∀ t, hiSet (inp t % 256))
    {fuel key : Nat} {s s' : St} {er : Bool}
    (h : wait_for_key inp fuel key s = .ok (s', er)) (hs : HiInv s) : HiInv s' := by
  unfold wait_for_key at h
  cases h1 : while_key_not inp 255 fuel s with
  | error e1 => rw [h1] at h; exact absurd h (by simp)
  | ok s1 =>
    rw [h1] at h
    simp only [] at h
    have hs1 : HiInv s1 := while_key_not_hi Hin 255 fuel s s1 h1 hs
    have hs2 : HiInv (wfkLoop inp (KEYTIMEOUT + 1) s1) := wfkLoop_hi Hin _ _ hs1
    have hs3 : HiInv (writeB (wfkLoop inp (KEYTIMEOUT + 1) s1).keyboard
        (wfkLoop inp (KEYTIMEOUT + 1) s1)) := writeB_hi hs2.2.1 hs2.2.2 hs2
    cases h2 : while_key_not inp 255 fuel (writeB (wfkLoop inp (KEYTIMEOUT + 1) s1).keyboard
        (wfkLoop inp (KEYTIMEOUT + 1) s1)) with
    | error e2 => rw [h2] at h; exact absurd h (by simp)
    | ok s2 =>
      rw [h2] at h
      simp only [Except.ok.injEq, Prod.mk.injEq] at h
      obtain ⟨hs', _⟩ := h
      subst hs'
      have hs4 : HiInv s2 := while_key_not_hi Hin 255 fuel _ _ h2 hs3
      exact writeB_hi hs4.2.1 hs4.2.2 hs4

theorem n2b3_hi (m : Nat) : hiSet (number2bits (m &&& 3)) := by
  have h3 : m &&& 3 ≤ 3 := Nat.and_le_right
  generalize hk : m &&& 3 = k at h3
  interval_cases k <;> decide

theorem playbackLoop_hi {inp : Nat → Nat} (Hin : ∀ t, hiSet (inp t % 256)) :
    ∀ rem j s, HiInv s → HiInv (playbackLoop inp j rem s) := by
  intro rem
  induction rem with
  | zero => intro j s h; exact h
  | succ m ih =>
    intro j s h
    simp only [playbackLoop, delay_long_false]
    refine ih _ _ (afterDelay_hi Hin _ (writeB_hi (by decide) (by decide)
      (afterDelay_hi Hin _ (writeB_hi ?_ (number2bits_lt _) h))))
    have := n2b3_hi (s.seq >>> (j <<< 1))
    simpa using this

theorem verifyLoop_hi {inp : Nat → Nat} (Hin : ∀ t, hiSet (inp t % 256)) (fuel : Nat) :
    ∀ rem j s s' b, verifyLoop inp fuel j rem s = .ok (s', b) → HiInv s → HiInv s' := by
  intro rem
  induction rem with
  | zero =>
    intro j s s' b h hs
    simp only [verifyLoop, Except.ok.injEq, Prod.mk.injEq] at h
    obtain ⟨h1, _⟩ := h
    subst h1
    exact hs
  | succ m ih =>
    intro j s s' b h hs
    simp only [verifyLoop] at h
    cases hw : wait_for_key inp fuel (number2bits ((s.seq >>> (j <<< 1)) &&& 3)) s with
    | error e => rw [hw] at h; exact absurd h (by simp)
    | ok p =>
      obtain ⟨s1, err⟩ := p
      rw [hw] at h
      have hs1 : HiInv s1 := wait_for_key_hi Hin hw hs
      cases err with
      | true =>
        simp only [if_pos, Except.ok.injEq, Prod.mk.injEq] at h
        obtain ⟨h1, _⟩ := h
        subst h1
        exact hs1
      | false =>
        simp only [Bool.false_eq_true, if_false] at h
        exact ih _ _ _ _ h hs1

theorem playLoop_hi {inp : Nat → Nat} (Hin : ∀ t, hiSet (inp t % 256)) (fuel : Nat) :
    ∀ rem i s s' b, playLoop inp fuel i rem s = .ok (s', b) → HiInv s → HiInv s' := by
  intro rem
  induction rem with
  | zero =>
    intro i s s' b h hs
    simp only [playLoop, Except.ok.injEq, Prod.mk.injEq] at h
    obtain ⟨h1, _⟩ := h
    subst h1
    exact hs
  | succ m ih =>
    intro i s s' b h hs
    simp only [playLoop] at h
    cases hr : playRound inp fuel i s with
    | error e => rw [hr] at h; exact absurd h (by simp)
    | ok p =>
      obtain ⟨s1, lost⟩ := p
      rw [hr] at h
      have hs1 : HiInv s1 := by
        unfold playRound at hr
        rw [delay_long_false] at hr
        simp only [] at hr
        exact verifyLoop_hi Hin fuel _ _ _ _ _ hr
          (playbackLoop_hi Hin _ _ _ (afterDelay_hi Hin _ hs))
      cases lost with
      | true =>
        simp only [if_pos, Except.ok.injEq, Prod.mk.injEq] at h
        obtain ⟨h1, _⟩ := h
        subst h1
        exact hs1
      | false =>
        simp only [Bool.false_eq_true, if_false] at h
        exact ih _ _ _ _ h hs1

theorem play_hi {inp : Nat → Nat} (Hin : ∀ t, hiSet (inp t % 256)) {fuel : Nat}
    {s s' : St} {b : Bool} (h : play inp fuel s = .ok (s', b)) (hs : HiInv s) :
    HiInv s' :=
  playLoop_hi Hin fuel s.seq_len 1 s s' b h hs

theorem standbyInner_hi {inp : Nat → Nat} (Hin : ∀ t, hiSet (inp t % 256)) :
    ∀ n leds s, (∀ k, k < n → hiSet (ledsShift^[k] leds)) → leds < 256 → HiInv s →
      HiInv (standbyInner inp n leds s).1 := by
  intro n
  induction n with
  | zero => intro leds s _ _ h; exact h
  | succ m ih =>
    intro leds s hleds hlt h
    rw [standbyInner]
    have h1 : HiInv (if s.sleep then s else writeB leds s) := by
      split
      · exact h
      · exact writeB_hi (hleds 0 (Nat.succ_pos m)) hlt h
    cases hd : delay inp true (if s.sleep then s else writeB leds s) with
    | mk s2 intr =>
      have h2 : HiInv s2 := by
        have := delay_hi Hin true h1
        rwa [hd] at this
      cases intr with
      | true => exact writeB_hi (by decide) (by decide) h2
      | false =>
        refine ih (ledsShift leds) s2 ?_ ?_ h2
        · intro k hk
          rw [← Function.iterate_succ_apply]
          exact hleds (k + 1) (Nat.succ_lt_succ hk)
        · calc ledsShift leds ≤ 255 := Nat.and_le_right
            _ < 256 := by norm_num

theorem standbyOuter_hi {inp : Nat → Nat} (Hin : ∀ t, hiSet (inp t % 256)) :
    ∀ n s, HiInv s → HiInv (standbyOuter inp n s).1 := by
  intro n
  induction n with
  | zero => intro s h; exact writeB_hi (by decide) (by decide) h
  | succ m ih =>
    intro s h
    rw [standbyOuter]
    have hinner : HiInv (standbyInner inp 4 0b11111110 s).1 := by
      refine standbyInner_hi Hin 4 _ s ?_ (by norm_num) h
      intro k hk
      interval_cases k <;> decide
    cases hd : standbyInner inp 4 0b11111110 s with
    | mk s1 intr =>
      rw [hd] at hinner
      cases intr with
      | true => exact hinner
      | false => exact ih _ hinner

theorem standby_hi {inp : Nat → Nat} (Hin : ∀ t, hiSet (inp t % 256)) {s : St}
    (h : HiInv s) : HiInv (standby inp s).1 :=
  standbyOuter_hi Hin STANDBYTIMEOUT _ (writeB_hi (by decide) (by decide) h)

theorem HiInv_set_sleep {s : St} (b : Bool) (h : HiInv s) :
    HiInv { s with sleep := b } := by
  obtain ⟨h1, h2, h3⟩ := h
  refine ⟨?_, ?_, ?_⟩
  · simpa using h1
  · simpa using h2
  · simpa using h3

theorem while_keypattern_not_hi {inp : Nat → Nat} (Hin : ∀ t, hiSet (inp t % 256))
    (kp : Nat) : ∀ fuel s s', while_keypattern_not inp kp fuel s = .ok s' →
      HiInv s → HiInv s' := by
  intro fuel
  induction fuel with
  | zero => intro s s' h; simp [while_keypattern_not] at h
  | succ m ih =>
    intro s s' h hs
    simp only [while_keypattern_not] at h
    cases hsb : standby inp s with
    | mk s1 timeout =>
      rw [hsb] at h
      have h1 : HiInv s1 := by
        have := standby_hi Hin hs
        rwa [hsb] at this
      cases timeout with
      | true =>
        simp only [Except.ok.injEq] at h
        subst h
        exact HiInv_set_sleep true h1
      | false =>
        simp only [] at h
        by_cases hc : (s1.keyboard ^^^ 255) &&& kp &&& 255 ≠ 0
        · rw [if_pos hc] at h
          simp only [Except.ok.injEq] at h
          subst h
          exact HiInv_set_sleep false h1
        · rw [if_neg hc] at h
          exact ih _ _ h h1

theorem init_hi {inp : Nat → Nat} (Hin : ∀ t, hiSet (inp t % 256))
    {fuel r : Nat} {s s' : St} (h : init inp fuel r s = .ok s') (hs : HiInv s) :
    HiInv s' := by
  unfold init at h
  cases h1 : while_keypattern_not inp 0b00000011 fuel s with
  | error e => rw [h1] at h; exact absurd h (by simp)
  | ok s1 =>
    rw [h1] at h
    try simp only [] at h
    have hs1 : HiInv s1 := while_keypattern_not_hi Hin _ fuel s s1 h1 hs
    by_cases hsl : s1.sleep
    · rw [if_pos hsl] at h
      simp only [Except.ok.injEq] at h
      subst h
      exact hs1
    · rw [if_neg hsl] at h
      try simp only [] at h
      have hs2 : HiInv (writeB s1.keyboard s1) := writeB_hi hs1.2.1 hs1.2.2 hs1
      cases h2 : while_key_not inp 0b11111111 fuel (writeB s1.keyboard s1) with
      | error e => rw [h2] at h; exact absurd h (by simp)
      | ok s3 =>
        rw [h2] at h
        try simp only [] at h
        have hs3 : HiInv s3 := while_key_not_hi Hin _ fuel _ _ h2 hs2
        cases h3 : while_keypattern_not inp 0b00001111 fuel s3 with
        | error e => rw [h3] at h; exact absurd h (by simp)
        | ok s4 =>
          rw [h3] at h
          try simp only [] at h
          have hs4 : HiInv s4 := while_keypattern_not_hi Hin _ fuel _ _ h3 hs3
          by_cases hsl4 : s4.sleep
          · rw [if_pos hsl4] at h
            simp only [Except.ok.injEq] at h
            subst h
            exact hs4
          · rw [if_neg hsl4] at h
            try simp only [] at h
            have hs5 : HiInv (writeB s4.keyboard s4) := writeB_hi hs4.2.1 hs4.2.2 hs4
            cases h4 : while_key_not inp 0b11111111 fuel (writeB s4.keyboard s4) with
            | error e => rw [h4] at h; exact absurd h (by simp)
            | ok s6 =>
              rw [h4] at h
              try simp only [] at h
              have hs6 : HiInv s6 := while_key_not_hi Hin _ fuel _ _ h4 hs5
              have hs7 : HiInv (writeB s6.keyboard s6) := writeB_hi hs6.2.1 hs6.2.2 hs6
              unfold gen_seq at h
              cases hg : lengths[bits2number (writeB s4.keyboard s4).keyboard]? with
              | none => rw [hg] at h; exact absurd h (by simp)
              | some len =>
                rw [hg] at h
                simp only [Except.ok.injEq] at h
                subst h
                exact ⟨hs7.1, hs7.2.1, hs7.2.2⟩

/-! Value classification of the animation and playback traces. -/

theorem onCount_n2b (m : Nat) : onCount (number2bits (m &&& 3)) = 1 := by
  have h3 : m &&& 3 ≤ 3 := Nat.and_le_right
  generalize hk : m &&& 3 = k at h3
  interval_cases k <;> decide

theorem pbWrites_vals (seqv : Nat) :
    ∀ rem t0 j, ∀ w ∈ pbWrites seqv t0 j rem, w.2 = 255 ∨ onCount w.2 = 1 := by
  intro rem
  induction rem with
  | zero => intro t0 j w hw; simp [pbWrites] at hw
  | succ m ih =>
    intro t0 j w hw
    simp only [pbWrites, List.mem_cons] at hw
    rcases hw with rfl | rfl | hw
    · right
      exact onCount_n2b _
    · left
      rfl
    · exact ih _ _ w hw

theorem mockWrites_vals : ∀ n t0, ∀ w ∈ mockWrites t0 n, w.2 = 240 ∨ w.2 = 255 := by
  intro n
  induction n with
  | zero => intro t0 w hw; simp [mockWrites] at hw
  | succ m ih =>
    intro t0 w hw
    simp only [mockWrites, List.mem_cons] at hw
    rcases hw with rfl | rfl | hw
    · left; rfl
    · right; rfl
    · exact ih _ w hw

theorem celebCycleWrites_hi (t0 : Nat) : hiOK (celebCycleWrites t0) := by
  intro w hw
  fin_cases hw <;> (simp only [hiSet]; decide)

theorem celebWrites_hi (t0 : Nat) : hiOK (celebWrites t0) := by
  rw [celebWrites, hiOK_append, hiOK_append]
  exact ⟨⟨celebCycleWrites_hi _, celebCycleWrites_hi _⟩, celebCycleWrites_hi _⟩

theorem mockWrites_hi (t0 n : Nat) : hiOK (mockWrites t0 n) := by
  intro w hw
  rcases mockWrites_vals n t0 w hw with h | h <;> rw [h] <;> decide

/-! Concrete states and input traces used by the witnesses and
counterexamples below. -/

/-- Startup state: all LEDs off, no key sampled yet, empty write trace. -/
def st0 : St :=
  { keyboard := 0, portb := 255, out := [], tick := 0, seq := 0, seq_len := 0,
    sleep := true }

/-- Input trace pressing the wrong key: released at tick 0, switch 1 pressed
at tick 1 (byte 253) where switch 0 (byte 254) is expected, released after. -/
def w2inp : Nat → Nat := fun t => if t = 1 then 253 else 255

/-- State after the failing `wait_for_key` of `w2inp`. -/
def w2sf : St :=
  { keyboard := 255, portb := 255, out := [(2, 253), (3, 255)], tick := 3,
    seq := 0, seq_len := 0, sleep := true }

/-- Playback demo state: sequence symbols [2, 3] packed as 0b1110. -/
def st3 : St :=
  { keyboard := 0, portb := 255, out := [], tick := 0, seq := 14, seq_len := 2,
    sleep := false }

/-- Input trace for level selection with two switches pressed together:
switch 0 at tick 0 starts the game (mode select), release, then switches 0
and 1 together (byte 0b11111100 = 252) at tick 2 during level selection. -/
def inp6 : Nat → Nat := fun t => if t = 0 then 254 else if t = 2 then 252 else 255

/-- Input trace whose first sample has a cleared upper-nibble bit (byte
0b01110000 = 112, switch 0 pressed together with a phantom bit-7 low):
accepted at mode selection and mirrored verbatim to the LED port. -/
def inp9 : Nat → Nat := fun t => if t = 0 then 112 else if t = 2 then 254 else 255

/-- State after `init` on `inp9`. -/
def st9cex : St :=
  { keyboard := 255, portb := 255,
    out := [(0, 255), (1, 112), (1, 255), (1, 112), (2, 255), (2, 254), (3, 254),
      (3, 255), (3, 254), (4, 255)],
    tick := 4, seq := 77, seq_len := 5, sleep := false }

/-- State after `gen_seq 0` with the draw 2^30. -/
def st8cex : St :=
  { keyboard := 0, portb := 255, out := [], tick := 0, seq := 1073741824,
    seq_len := 5, sleep := true }

/-- Clean startup state whose keyboard byte has the high nibble set. -/
def st0hi : St :=
  { keyboard := 255, portb := 255, out := [], tick := 0, seq := 0, seq_len := 0,
    sleep := true }

/-! Claim theorems. -/

/-- C1: the player wins exactly when every position of every round from 1 to
`seq_len` passes verification (`play` returns 1 precisely when the
no-early-abort verification of all positions reports all passed), and the
celebrate animation then appends exactly three cycles of the chase pattern
to the write trace. -/
theorem c1_win_iff_every_position_passes (inp : Nat → Nat) (fuel : Nat) (s : St) :
    (∀ s', play inp fuel s = .ok (s', true) ↔ playAll inp fuel s = .ok (s', true)) ∧
    (∀ s2 : St, (celebrate inp s2).out = s2.out ++ celebWrites s2.tick) :=
  ⟨fun s' => play_iff inp fuel s s', fun s2 => celebrate_out inp s2⟩

/-- C2: a pressed byte that differs from the expected symbol's pattern makes
`wait_for_key` report an error, upon which the verification loop returns the
loss immediately in exactly that state (no later position is evaluated), and
a lost round makes `play` return 0 in that state (no later round is
evaluated); moreover exhausting the key-timeout budget (no key ever pressed)
also makes `wait_for_key` report an error against any expected pattern. -/
theorem c2_mismatch_or_timeout_loses_immediately (inp : Nat → Nat)
    (fuel j rem : Nat) (s sf : St)
    (hw : wait_for_key inp fuel (number2bits ((s.seq >>> (2 * j)) &&& 3)) s =
      .ok (sf, true)) :
    verifyLoop inp fuel j (rem + 1) s = .ok (sf, true) ∧
    (∀ (i rem0 : Nat) (s0 sf0 : St), playRound inp fuel i s0 = .ok (sf0, true) →
      playLoop inp fuel i (rem0 + 1) s0 = .ok (sf0, false)) ∧
    (∀ (inp2 : Nat → Nat) (f key : Nat) (s1 : St), key ≠ 255 →
      (∀ t, inp2 t % 256 = 255) →
      ∃ s2, wait_for_key inp2 (f + 1) key s1 = .ok (s2, true)) := by
  refine ⟨?_, ?_, ?_⟩
  · simp [verifyLoop, hw]
  · intro i rem0 s0 sf0 hr
    simp [playLoop, hr]
  · intro inp2 f key s1 hk hall
    exact wait_for_key_timeout inp2 hall f key hk s1

/-- Witness for C2: on the concrete trace `w2inp` the player presses switch 1
(byte 253) where the sequence symbol 0 (pattern 254) is expected, and the
verification loop returns the loss at once with the failing state. -/
theorem c2_witness : verifyLoop w2inp 3 0 1 st0 = .ok (w2sf, true) :=
  (c2_mismatch_or_timeout_loses_immediately w2inp 3 0 0 st0 w2sf (by decide)).1

/-- C3: for every position count `i`, playback emits exactly the first `i`
symbols of the sequence in order — the symbol at index `j` is
`(seq >> (2*j)) & 0b11`, shown as its single-LED pattern held for 1200 ticks
then all-off for 1200 ticks, slots strictly alternating 2400 ticks apart —
and every emitted byte is either the blank 255 or has exactly one lit LED. -/
theorem c3_playback_first_symbols (inp : Nat → Nat) (i : Nat) (s : St) :
    (playbackLoop inp 0 i s).out = s.out ++ pbWrites s.seq s.tick 0 i ∧
    (playbackLoop inp 0 i s).tick = s.tick + 2400 * i ∧
    (∀ w ∈ pbWrites s.seq s.tick 0 i, w.2 = 255 ∨ onCount w.2 = 1) :=
  ⟨(playbackLoop_out inp i 0 s).1, (playbackLoop_out inp i 0 s).2.1,
    pbWrites_vals s.seq i s.tick 0⟩

/-- Witness for C3: a two-symbol playback of the packed sequence 0b1110
(symbols 2 then 3) produces exactly the four writes 251, 255, 247, 255 at
ticks 0, 1200, 2400, 3600. -/
theorem c3_witness :
    (playbackLoop (fun _ => 255) 0 2 st3).out =
      st3.out ++ pbWrites st3.seq st3.tick 0 2 ∧
    pbWrites st3.seq st3.tick 0 2 =
      [(0, 251), (1200, 255), (2400, 247), (3600, 255)] :=
  ⟨(c3_playback_first_symbols (fun _ => 255) 2 st3).1, by decide⟩

/-- C4: for every level 0..3, `gen_seq` succeeds and sets the sequence length
to the table value 5, 7, 9 or 11, which is at most 15. -/
theorem c4_lengths_table (level r : Nat) (s : St) (h : level < 4) :
    ∃ s', gen_seq level r s = .ok s' ∧
      s'.seq_len = [5, 7, 9, 11].getD level 0 ∧ s'.seq_len ≤ 15 := by
  interval_cases level
  · exact ⟨_, rfl, rfl, by show (5 : Nat) ≤ 15; decide⟩
  · exact ⟨_, rfl, rfl, by show (7 : Nat) ≤ 15; decide⟩
  · exact ⟨_, rfl, rfl, by show (9 : Nat) ≤ 15; decide⟩
  · exact ⟨_, rfl, rfl, by show (11 : Nat) ≤ 15; decide⟩

/-- Witness for C4: level 2 yields length 9. -/
theorem c4_witness :
    ∃ s', gen_seq 2 123 st0 = .ok s' ∧
      s'.seq_len = [5, 7, 9, 11].getD 2 0 ∧ s'.seq_len ≤ 15 :=
  c4_lengths_table 2 123 st0 (by norm_num)

set_option maxRecDepth 4096 in
/-- C5: for n in 0..3, `number2bits n` is the byte whose bits are set at
every position of 0..7 except n; `bits2number` undoes it on those four
values; and `bits2number` returns the sentinel 8 on every other byte. -/
theorem c5_bits_roundtrip :
    (∀ n, n < 4 → (∀ k, k < 8 → ((number2bits n).testBit k ↔ k ≠ n)) ∧
      bits2number (number2bits n) = n) ∧
    (∀ b, b < 256 → b ∉ [254, 253, 251, 247] → bits2number b = 8) := by
  refine ⟨by decide, by decide⟩

/-- C6: pressing switches 0 and 1 together during level selection (trace
`inp6`, byte 252) is accepted by the level pattern wait, decodes to the
sentinel level 8, and `gen_seq` then performs the out-of-bounds read
`lengths[8]`: `init` fails with `Err.oobRead`.  The caller never validates
the decoded level against the table bounds. -/
theorem c6_level8_out_of_bounds :
    init inp6 5 0 st0 = .error .oobRead ∧
    bits2number 252 = 8 ∧
    lengths[(8 : Nat)]? = none ∧
    (252 ^^^ 255) &&& 15 &&& 255 ≠ 0 := by
  decide

/-- Counterexample for C7: the first write of each mock cycle is the byte
0xF0 = 240, which lights four LEDs (four zero bits in the low nibble), not
two as the claim states. -/
theorem c7_cex :
    (mock (fun _ => 255) st0).out.head? = some (0, 240) ∧ onCount 240 ≠ 2 := by
  constructor
  · rw [mock_out]
    decide
  · decide

/-- C7 (amended): on every loss the mock animation runs exactly 15
non-interruptible cycles (the trace does not depend on the input stream),
each cycle an all-four-LEDs-on write (byte 0xF0) followed 300 ticks later by
an all-off write, cycles 600 ticks apart. -/
theorem c7_mock_fifteen_cycles (inp : Nat → Nat) (s : St) :
    (mock inp s).out = s.out ++ mockWrites s.tick 15 ∧
    (∀ w ∈ mockWrites s.tick 15, w.2 = 240 ∨ w.2 = 255) ∧
    onCount 240 = 4 :=
  ⟨mock_out inp s, mockWrites_vals 15 s.tick, by decide⟩

/-- Counterexample for C8: `gen_seq` stores the raw pseudo-random draw; with
the legitimate draw 2^30 (`random()` ranges over [0, 2^31)) at level 0
(length 5), the bits above the 2·5 low bits of `seq` are not zero. -/
theorem c8_cex :
    gen_seq 0 1073741824 st0 = .ok st8cex ∧
    st8cex.seq >>> (2 * st8cex.seq_len) ≠ 0 := by
  decide

/-- C8 (amended): after `gen_seq` at a valid level the packed sequence is
the raw 32-bit pseudo-random draw (its bits above the 2·seq_len low bits
need not be zero), and `play` modifies neither `seq` nor `seq_len`. -/
theorem c8_seq_raw_and_immutable :
    (∀ (level r : Nat) (s : St), level < 4 →
      ∃ s', gen_seq level r s = .ok s' ∧ s'.seq = r % 4294967296) ∧
    (∀ (inp : Nat → Nat) (fuel : Nat) (s s' : St) (b : Bool),
      play inp fuel s = .ok (s', b) → s'.seq = s.seq ∧ s'.seq_len = s.seq_len) := by
  constructor
  · intro level r s h
    interval_cases level <;> exact ⟨_, rfl, rfl⟩
  · intro inp fuel s s' b h
    exact playLoop_pres inp fuel s.seq_len 1 s s' b h

/-- Witness for C8: level 2 stores the draw 7 verbatim, and a zero-length
game leaves the sequence fields untouched. -/
theorem c8_witness :
    (∃ s', gen_seq 2 7 st0 = .ok s' ∧ s'.seq = 7 % 4294967296) ∧
    (st0.seq = st0.seq ∧ st0.seq_len = st0.seq_len) :=
  ⟨c8_seq_raw_and_immutable.1 2 7 st0 (by norm_num),
   c8_seq_raw_and_immutable.2 (fun _ => 255) 1 st0 st0 true (by decide)⟩

/-- Counterexample for C9: with the 8-bit input sample 112 (high nibble
0b0111), `init` on trace `inp9` accepts the sample at mode selection and
mirrors it verbatim to the LED port: the write (tick 1, value 112) has a
cleared upper-nibble bit, so the claim fails for arbitrary 8-bit samples. -/
theorem c9_cex :
    init inp9 5 77 st0 = .ok st9cex ∧ (1, 112) ∈ st9cex.out ∧ ¬ hiSet 112 := by
  decide

/-- C9 (amended): if every input sample has its high four bits set (as the
four-switch hardware guarantees) and the starting state is clean, then every
value written to the LED port by `init`, `play`, `celebrate`, `mock` and the
key-wait loops has its high four bits set. -/
theorem c9_high_nibble_held (inp : Nat → Nat) (Hin : ∀ t, hiSet (inp t % 256))
    (s : St) (hs : HiInv s) :
    (∀ fuel r s', init inp fuel r s = .ok s' → hiOK s'.out) ∧
    (∀ fuel s' b, play inp fuel s = .ok (s', b) → hiOK s'.out) ∧
    hiOK (celebrate inp s).out ∧
    hiOK (mock inp s).out ∧
    (∀ key fuel s', while_key inp key fuel s = .ok s' → hiOK s'.out) ∧
    (∀ key fuel s', while_key_not inp key fuel s = .ok s' → hiOK s'.out) := by
  refine ⟨?_, ?_, ?_, ?_, ?_, ?_⟩
  · intro fuel r s' h
    exact (init_hi Hin h hs).1
  · intro fuel s' b h
    exact (play_hi Hin h hs).1
  · rw [celebrate_out]
    exact hiOK_append.mpr ⟨hs.1, celebWrites_hi _⟩
  · rw [mock_out]
    exact hiOK_append.mpr ⟨hs.1, mockWrites_hi _ _⟩
  · intro key fuel s' h
    exact (while_key_hi Hin key fuel s s' h hs).1
  · intro key fuel s' h
    exact (while_key_not_hi Hin key fuel s s' h hs).1

/-- Witness for C9 (amended): with the all-released input stream and a clean
start state, the mock and celebrate traces keep the high nibble set. -/
theorem c9_witness :
    hiOK (mock (fun _ => 255) st0hi).out ∧
    hiOK (celebrate (fun _ => 255) st0hi).out :=
  ⟨(c9_high_nibble_held (fun _ => 255)
      (fun t => (by decide : hiSet (255 % 256))) st0hi (by decide)).2.2.2.1,
   (c9_high_nibble_held (fun _ => 255)
      (fun t => (by decide : hiSet (255 % 256))) st0hi (by decide)).2.2.1⟩

/-- C10: a non-interruptible delay returns 0 (never interrupted) and writes
nothing to the LED port for every input trace, even when keys are pressed
during it; it only advances the input cursor by its tick count and updates
the keyboard sample, and `delay_long` with the non-interruptible flag
behaves the same over `count` repetitions. -/
theorem c10_noninterruptible_delay_pure (inp : Nat → Nat) (s : St) (count : Nat) :
    (delay inp false s).2 = false ∧
    (delay inp false s).1.out = s.out ∧
    (delay inp false s).1.portb = s.portb ∧
    (delay inp false s).1.seq = s.seq ∧
    (delay inp false s).1.seq_len = s.seq_len ∧
    (delay inp false s).1.sleep = s.sleep ∧
    (delay inp false s).1.tick = s.tick + 300 ∧
    (delay inp false s).1.keyboard = inp (s.tick + 299) % 256 ∧
    (delay_long inp count false s).2 = false ∧
    (delay_long inp count false s).1.out = s.out ∧
    (delay_long inp count false s).1.portb = s.portb ∧
    (delay_long inp count false s).1.tick = s.tick + 300 * count := by
  rw [delay_false, delay_long_false]
  simp [afterDelay]

/-- Witness for C1: at the startup state the celebrate animation appends
exactly the three-cycle trace. -/
theorem c1_witness :
    (celebrate (fun _ => 255) st0).out = st0.out ++ celebWrites st0.tick :=
  (c1_win_iff_every_position_passes (fun _ => 255) 1 st0).2 st0

/-- Witness for C5: the round trip at n = 2. -/
theorem c5_witness : bits2number (number2bits 2) = 2 :=
  (c5_bits_roundtrip.1 2 (by decide)).2

/-- Witness for C6: the two-switch byte 252 decodes to the sentinel 8. -/
theorem c6_witness : bits2number 252 = 8 :=
  c6_level8_out_of_bounds.2.1

/-- Witness for C7 (amended): the fifteen-cycle mock trace at the startup
state. -/
theorem c7_witness :
    (mock (fun _ => 255) st0).out = st0.out ++ mockWrites st0.tick 15 :=
  (c7_mock_fifteen_cycles (fun _ => 255) st0).1

/-- Witness for C10: a concrete non-interruptible delay is never reported
interrupted. -/
theorem c10_witness : (delay (fun _ => 255) false st0).2 = false :=
  (c10_noninterruptible_delay_pure (fun _ => 255) st0 2).1
